import Mathlib

/-
Verification of the sharded Monte Carlo simulation engine described by the
repository's specification, together with the engine's callers that are
present in the source tree (`run_mc_local.py`, `temporal_client.py`,
`temporal_worker.py`).

The engine itself (Shard Planner, Shard Simulator, Orchestrator, Aggregator,
Analytic Validator) is not present under the source tree: only its callers
are.  Those components are therefore modelled from the specification's own
words; each such definition carries a doc comment starting with
"Modelled from the spec:".  Everything about `temporal_worker.py`,
`run_mc_local.py` and `temporal_client.py` is translated directly from the
source files.
-/

namespace MCEngine

/-! ## Module-level names and Python `from ... import` semantics -/

/-- The top-level names bound in `temporal_worker.py`, in source order:
the module's imports, module-level bindings, and every `def`/`class`
statement.  Translated from the source file. -/
def temporalWorkerNames : List String :=
  [ "asyncio", "logging", "os", "timedelta", "datetime",
    "workflow", "Client", "Worker", "activity", "load_dotenv",
    "ThreadPoolExecutor", "List", "Optional", "requests",
    "urlparse", "urljoin", "urldefrag", "re", "hashlib", "psycopg2",
    "dataclass", "asdict",
    "logger",
    "get_temporal_config",
    "process_order_activity",
    "send_notification_activity",
    "ScrapeResult",
    "ScraperConfig",
    "get_db_connection",
    "get_url_hash",
    "init_scraper_db",
    "enqueue_urls",
    "fetch_url_batch",
    "scrape_url",
    "save_scrape_results",
    "get_scraper_stats",
    "WebScraperWorkflow",
    "OrderProcessingWorkflow",
    "create_worker",
    "initialize_scraper_db",
    "main" ]

/-- Python `from m import a, b, ...`: the names are looked up left to right
in the module's namespace; the first missing name raises `ImportError`
carrying that name, and nothing after the failing import statement runs. -/
def fromImport (moduleNames : List String) (names : List String) :
    Except String Unit :=
  match names.find? (fun n => !(moduleNames.contains n)) with
  | some n => .error n
  | none => .ok ()

/-- The names `run_mc_local.py` line 14 imports from `temporal_worker`. -/
def runMcLocalImportNames : List String :=
  ["MonteCarloWorkflow", "mc_simulate_shard"]

/-- The names `temporal_client.py` line 12 imports from `temporal_worker`. -/
def temporalClientImportNames : List String :=
  ["OrderProcessingWorkflow", "MonteCarloWorkflow"]

/-- Loading `run_mc_local.py`: its only `from temporal_worker import ...`
statement, evaluated against the worker module's namespace. -/
def loadRunMcLocal : Except String Unit :=
  fromImport temporalWorkerNames runMcLocalImportNames

/-- Loading `temporal_client.py`: its two `from temporal_worker import ...`
statements (line 12, then line 24), evaluated in order; a failure in the
first prevents the second from running. -/
def loadTemporalClient : Except String Unit := do
  fromImport temporalWorkerNames temporalClientImportNames
  fromImport temporalWorkerNames ["get_temporal_config"]

/-! ## Error taxonomy -/

/-- Modelled from the spec: the error taxonomy of section 7
(`InvalidParameter`, `ResourceExhausted`, `ShardTimeout`, `ShardStalled`,
`ShardExecutionFailed` with the offending shard index and underlying cause,
`EmptyResultSet`), plus the simulator's `UnsupportedPayoff`. -/
inductive MCError where
  | invalidParameter (message : String)
  | unsupportedPayoff (payoff : String)
  | resourceExhausted (message : String)
  | shardTimeout
  | shardStalled
  | shardExecutionFailed (shardIndex : Nat) (cause : MCError)
  | emptyResultSet
deriving DecidableEq, Repr

/-! ## Data model -/

/-- Modelled from the spec: the financial parameters `S0,K,mu,sigma,r,T`
of `SimulationRequest`.  The floats are modelled as exact rationals. -/
structure FinParams where
  S0 : ℚ
  K : ℚ
  mu : ℚ
  sigma : ℚ
  r : ℚ
  T : ℚ
deriving DecidableEq, Repr

/-- Modelled from the spec: the immutable `SimulationRequest` input of
section 3 / the invocation contract of section 6.  Counts are Python ints
(possibly negative before validation), the payoff selector is the
invocation contract's string. -/
structure SimulationRequest where
  totalPaths : Int
  stepsPerPath : Int
  pathsPerShard : Int
  fin : FinParams
  payoff : String
  discount : Bool
  masterSeed : Nat
  heartbeatEveryPaths : Int
  storeFullPaths : Bool
  maxConcurrency : Int
deriving DecidableEq, Repr

/-- Modelled from the spec: a `ShardSpec` — 0-based contiguous
`shardIndex`, `pathsInShard`, plus a copy of everything a shard needs for
independent execution. -/
structure ShardSpec where
  shardIndex : Nat
  pathsInShard : Nat
  stepsPerPath : Nat
  masterSeed : Nat
  fin : FinParams
  payoff : String
  discount : Bool
  heartbeatEveryPaths : Nat
  storeFullPaths : Bool
deriving DecidableEq, Repr

/-! ## Shard Planner -/

/-- Modelled from the spec: the Shard Planner's split of `totalPaths` into
chunk sizes — shard `i` covers paths `[i*pathsPerShard, ...)` and receives
`min pathsPerShard (totalPaths - i*pathsPerShard)` paths, for
`shardCount = ceil(totalPaths / pathsPerShard)` shards. -/
def planChunks (totalPaths pathsPerShard : Nat) : List Nat :=
  (List.range ((totalPaths + pathsPerShard - 1) / pathsPerShard)).map
    (fun i => min pathsPerShard (totalPaths - i * pathsPerShard))

/-- Modelled from the spec: the Shard Planner — the chunk sizes paired
with contiguous 0-based shard indices and a copy of the request's
execution parameters. -/
def planShards (req : SimulationRequest) : List ShardSpec :=
  (planChunks req.totalPaths.toNat req.pathsPerShard.toNat).enum.map
    (fun p =>
      { shardIndex := p.1
        pathsInShard := p.2
        stepsPerPath := req.stepsPerPath.toNat
        masterSeed := req.masterSeed
        fin := req.fin
        payoff := req.payoff
        discount := req.discount
        heartbeatEveryPaths := req.heartbeatEveryPaths.toNat
        storeFullPaths := req.storeFullPaths })

/-- The concrete request built by `run_mc_local.py` lines 21–36
(`num_paths_total=200000, steps_per_path=128, paths_per_shard=50000`,
European call, discounting on, master seed 42). -/
def runMcLocalRequest : SimulationRequest :=
  { totalPaths := 200000
    stepsPerPath := 128
    pathsPerShard := 50000
    fin := { S0 := 100, K := 100, mu := 1/20, sigma := 1/5, r := 1/100, T := 1 }
    payoff := "european_call"
    discount := true
    masterSeed := 42
    heartbeatEveryPaths := 10000
    storeFullPaths := false
    maxConcurrency := 0 }

/-! ## Shard results and the Aggregator -/

/-- Modelled from the spec: `ShardResult` — the three scalars a successful
shard reduces to, labelled with the shard's index.  Payoffs are real
numbers (the idealisation of the source's floating point). -/
structure ShardResult where
  shardIndex : Nat
  count : Nat
  sumPayoff : ℝ
  sumSquaredPayoff : ℝ

/-- Modelled from the spec: the `(count, sum, sumsq)` triple that the
Aggregator's pairwise reduction combines. -/
structure MomentTriple where
  count : Nat
  sum : ℝ
  sumsq : ℝ

/-- Modelled from the spec: the pairwise combination of two
`(count, sum, sumsq)` triples — componentwise addition. -/
def combineTriples (a b : MomentTriple) : MomentTriple :=
  { count := a.count + b.count, sum := a.sum + b.sum, sumsq := a.sumsq + b.sumsq }

/-- The moment triple of one `ShardResult`. -/
def tripleOf (r : ShardResult) : MomentTriple :=
  { count := r.count, sum := r.sumPayoff, sumsq := r.sumSquaredPayoff }

/-- Modelled from the spec: the Aggregator's reduction of all shard
triples by pairwise combination. -/
def combineAll (rs : List ShardResult) : MomentTriple :=
  (rs.map tripleOf).foldl combineTriples { count := 0, sum := 0, sumsq := 0 }

/-- Modelled from the spec: `AggregateResult` — the final output, with the
analytic-validation fields optional. -/
structure AggregateResult where
  totalPathsProcessed : Nat
  estimate : ℝ
  stddev : ℝ
  stderr : ℝ
  confidence95 : ℝ × ℝ
  shardCount : Nat
  analyticPrice : Option ℝ
  absoluteError : Option ℝ

/-- Modelled from the spec: `mean = (Σ sumPayoff_i) / totalCount`. -/
noncomputable def meanOf (rs : List ShardResult) : ℝ :=
  (combineAll rs).sum / ((combineAll rs).count : ℝ)

/-- Modelled from the spec: the pooled variance, clamped to ≥ 0 to absorb
floating-point error. -/
noncomputable def varianceOf (rs : List ShardResult) : ℝ :=
  max ((combineAll rs).sumsq / ((combineAll rs).count : ℝ) -
    meanOf rs ^ 2) 0

/-- Modelled from the spec: `stddev = sqrt(variance)`. -/
noncomputable def stddevOf (rs : List ShardResult) : ℝ :=
  Real.sqrt (varianceOf rs)

/-- Modelled from the spec: `stderr = stddev / sqrt(totalCount)`. -/
noncomputable def stderrOf (rs : List ShardResult) : ℝ :=
  stddevOf rs / Real.sqrt ((combineAll rs).count : ℝ)

/-- Modelled from the spec: the Aggregator (section 4.4) — mean, clamped
variance, standard deviation, standard error and the 95% confidence
interval computed from the combined triple; `EmptyResultSet` when the
total count is zero.  The analytic fields are left empty here (the
Validator, a separate step, may fill them). -/
noncomputable def aggregate (rs : List ShardResult) :
    Except MCError AggregateResult :=
  if (combineAll rs).count = 0 then .error .emptyResultSet
  else
    .ok { totalPathsProcessed := (combineAll rs).count
          estimate := meanOf rs
          stddev := stddevOf rs
          stderr := stderrOf rs
          confidence95 := (meanOf rs - 1.96 * stderrOf rs,
                           meanOf rs + 1.96 * stderrOf rs)
          shardCount := rs.length
          analyticPrice := none
          absoluteError := none }

/-! ## Shard Simulator -/

/-- 2^64, the modulus of the shard seed / RNG state arithmetic. -/
def UINT64 : Nat := 2 ^ 64

/-- Modelled from the spec: first large odd constant of the shard-seed
derivation. -/
def seedMulA : Nat := 0x9E3779B97F4A7C15

/-- Modelled from the spec: second large odd constant of the shard-seed
derivation. -/
def seedMulB : Nat := 0xC2B2AE3D27D4EB4F

/-- Modelled from the spec: the shard-local random seed, a deterministic
function of `(masterSeed, shardIndex)`:
`seed = (masterSeed * C1) XOR (shardIndex * C2)` with large odd constants,
in 64-bit arithmetic. -/
def shardSeed (masterSeed shardIndex : Nat) : Nat :=
  ((masterSeed * seedMulA) ^^^ (shardIndex * seedMulB)) % UINT64

/-- Modelled from the spec: one step of the deterministic pseudo-random
generator seeded from the shard seed (a 64-bit linear congruential step;
the spec fixes only that the stream is a deterministic function of the
shard seed, which is all any claim uses). -/
def lcgNext (s : Nat) : Nat :=
  (6364136223846793005 * s + 1442695040888963407) % UINT64

/-- Modelled from the spec: the standard-normal draw obtained from one RNG
state (a deterministic function of the state; its distribution is
irrelevant to every claim). -/
noncomputable def zDraw (s : Nat) : ℝ :=
  (s : ℝ) / (UINT64 : ℝ) - 1 / 2

/-- State carried along one simulated price path: current price, running
sum of visited prices, RNG state, and the per-step price history. -/
structure PathState where
  price : ℝ
  priceSum : ℝ
  rng : Nat
  trace : List ℝ

/-- Modelled from the spec: one GBM step —
`S ← S · exp(driftDt + volSqrtDt · Z)` for a fresh standard-normal draw,
accumulating the visited price and the per-step history. -/
noncomputable def pathStep (driftDt volSqrtDt : ℝ) (st : PathState) :
    PathState :=
  let rng1 := lcgNext st.rng
  let z := zDraw rng1
  let p := st.price * Real.exp (driftDt + volSqrtDt * z)
  { price := p, priceSum := st.priceSum + p, rng := rng1,
    trace := st.trace ++ [p] }

/-- Iterate `pathStep` for the given number of steps. -/
noncomputable def simPathGo (driftDt volSqrtDt : ℝ) :
    Nat → PathState → PathState
  | 0, st => st
  | n + 1, st => simPathGo driftDt volSqrtDt n (pathStep driftDt volSqrtDt st)

/-- Modelled from the spec: simulate one GBM path of `steps` steps from
`S0`, with the per-step constants `dt = T/stepsPerPath`,
`driftDt = (mu − sigma²/2)·dt`, `volSqrtDt = sigma·sqrt(dt)` computed
once. -/
noncomputable def simPath (fin : FinParams) (steps : Nat) (rng : Nat) :
    PathState :=
  let dt : ℝ := (fin.T : ℝ) / (steps : ℝ)
  let driftDt : ℝ := ((fin.mu : ℝ) - (fin.sigma : ℝ) ^ 2 / 2) * dt
  let volSqrtDt : ℝ := (fin.sigma : ℝ) * Real.sqrt dt
  simPathGo driftDt volSqrtDt steps
    { price := (fin.S0 : ℝ), priceSum := 0, rng := rng, trace := [] }

/-- Modelled from the spec: the discount factor — `exp(−r·T)` when
`discount` is set, `1` otherwise. -/
noncomputable def discountFactor (discount : Bool) (fin : FinParams) : ℝ :=
  if discount then Real.exp (-((fin.r : ℝ) * (fin.T : ℝ))) else 1

/-- The payoff selector strings the engine supports. -/
def supportedPayoffs : List String :=
  ["european_call", "european_put", "asian_call", "asian_put"]

/-- Modelled from the spec: the per-path payoff evaluation of section 4.2
steps 4–5 — dispatch on the payoff selector, `UnsupportedPayoff` for any
other selector, then multiply by the discount factor. -/
noncomputable def evalPayoff (payoff : String) (discount : Bool)
    (fin : FinParams) (sFinal avgPrice : ℝ) : Except MCError ℝ :=
  let d := discountFactor discount fin
  if payoff = "european_call" then .ok (d * max (sFinal - (fin.K : ℝ)) 0)
  else if payoff = "european_put" then .ok (d * max ((fin.K : ℝ) - sFinal) 0)
  else if payoff = "asian_call" then .ok (d * max (avgPrice - (fin.K : ℝ)) 0)
  else if payoff = "asian_put" then .ok (d * max ((fin.K : ℝ) - avgPrice) 0)
  else .error (.unsupportedPayoff payoff)

/-- State accumulated across the paths of one shard: RNG stream position,
the `(count, sum, sumsq)` accumulators, emitted heartbeats, and the
optional full-path buffer. -/
structure ShardState where
  rng : Nat
  count : Nat
  sumPayoff : ℝ
  sumsq : ℝ
  heartbeats : List (Nat × Nat)
  buffer : List ℝ

/-- Modelled from the spec: simulate one path of the shard and fold it
into the shard state — payoff evaluation (which may fail), accumulator
update, a heartbeat every `heartbeatEveryPaths` completed paths, and the
full-path buffer when `storeFullPaths` is set. -/
noncomputable def shardStep (s : ShardSpec) (st : ShardState) :
    Except MCError ShardState :=
  match evalPayoff s.payoff s.discount s.fin
      (simPath s.fin s.stepsPerPath st.rng).price
      ((simPath s.fin s.stepsPerPath st.rng).priceSum /
        (s.stepsPerPath : ℝ)) with
  | .error e => .error e
  | .ok pay =>
    .ok { rng := (simPath s.fin s.stepsPerPath st.rng).rng
          count := st.count + 1
          sumPayoff := st.sumPayoff + pay
          sumsq := st.sumsq + pay * pay
          heartbeats :=
            if s.heartbeatEveryPaths ≠ 0 ∧
                (st.count + 1) % s.heartbeatEveryPaths = 0 then
              st.heartbeats ++ [(s.shardIndex, st.count + 1)]
            else st.heartbeats
          buffer :=
            if s.storeFullPaths then
              st.buffer ++ (simPath s.fin s.stepsPerPath st.rng).trace
            else st.buffer }

/-- Run `shardStep` over the given number of paths, stopping at the first
failure. -/
noncomputable def runShardPaths (s : ShardSpec) :
    Nat → ShardState → Except MCError ShardState
  | 0, st => .ok st
  | n + 1, st =>
    match shardStep s st with
    | .error e => .error e
    | .ok st1 => runShardPaths s n st1

/-- Everything one shard execution produces: its `ShardResult`, the
heartbeats it emitted, and the full-path buffer when requested. -/
structure ShardOutput where
  result : ShardResult
  heartbeats : List (Nat × Nat)
  fullPaths : Option (List ℝ)

/-- Modelled from the spec: the Shard Simulator (section 4.2) — seed the
RNG stream from `(masterSeed, shardIndex)`, simulate `pathsInShard` paths,
and reduce to the `(count, sum, sumsq)` scalars. -/
noncomputable def simulateShard (s : ShardSpec) :
    Except MCError ShardOutput :=
  match runShardPaths s s.pathsInShard
      { rng := shardSeed s.masterSeed s.shardIndex, count := 0,
        sumPayoff := 0, sumsq := 0, heartbeats := [], buffer := [] } with
  | .error e => .error e
  | .ok st =>
    .ok { result := { shardIndex := s.shardIndex, count := st.count,
                      sumPayoff := st.sumPayoff,
                      sumSquaredPayoff := st.sumsq }
          heartbeats := st.heartbeats
          fullPaths := if s.storeFullPaths then some st.buffer else none }

/-- The components of the shard state that determine the shard's
`ShardResult`: RNG position and the three accumulators (heartbeats and
the optional buffer are excluded). -/
def shardProj (st : ShardState) : Nat × Nat × ℝ × ℝ :=
  (st.rng, st.count, st.sumPayoff, st.sumsq)

/-! ## Retry policy -/

/-- Modelled from the spec: error classification for retries —
`ShardTimeout`/`ShardStalled` are transient and retried;
`InvalidParameter`, `UnsupportedPayoff`, `ResourceExhausted`,
`ShardExecutionFailed` and `EmptyResultSet` are never retried. -/
def isRetryable : MCError → Bool
  | .shardTimeout => true
  | .shardStalled => true
  | .invalidParameter _ => false
  | .unsupportedPayoff _ => false
  | .resourceExhausted _ => false
  | .shardExecutionFailed _ _ => false
  | .emptyResultSet => false

/-- Modelled from the spec: the default maximum attempt count of the
retry policy. -/
def defaultMaxAttempts : Nat := 5

/-- Modelled from the spec: the exponential-backoff delay before retry
number `attempt` (attempts are 1-based; the delay doubles with each
further attempt). -/
def backoffDelay (initial : ℚ) (attempt : Nat) : ℚ :=
  initial * 2 ^ (attempt - 1)

/-- Retry driver: run attempt number `attempt`; on a retryable error with
retries remaining, recurse, otherwise stop.  Returns the outcome together
with the number of the last attempt made. -/
def retryGo (f : Nat → Except MCError α) :
    Nat → Nat → Except MCError α × Nat
  | attempt, fuel =>
    match f attempt with
    | .ok a => (.ok a, attempt)
    | .error e =>
      match fuel with
      | 0 => (.error e, attempt)
      | fuel1 + 1 =>
        if isRetryable e then retryGo f (attempt + 1) fuel1
        else (.error e, attempt)

/-- Modelled from the spec: execute a fallible unit of work under the
retry policy — up to `maxAttempts` attempts, starting with attempt 1. -/
def runWithRetry (maxAttempts : Nat) (f : Nat → Except MCError α) :
    Except MCError α × Nat :=
  retryGo f 1 (maxAttempts - 1)

/-! ## Orchestrator -/

/-- Modelled from the spec: request validation — fails fast with
`InvalidParameter` on a non-positive count, negative volatility, negative
maturity, or an unsupported payoff string. -/
def validateRequest (req : SimulationRequest) : Except MCError Unit :=
  if req.totalPaths ≤ 0 then .error (.invalidParameter "num_paths_total")
  else if req.stepsPerPath ≤ 0 then .error (.invalidParameter "steps_per_path")
  else if req.pathsPerShard ≤ 0 then .error (.invalidParameter "paths_per_shard")
  else if req.fin.sigma < 0 then .error (.invalidParameter "sigma")
  else if ¬ supportedPayoffs.contains req.payoff then
    .error (.invalidParameter "payoff")
  else .ok ()

/-- The shards the Orchestrator schedules for a request: none at all when
validation fails, otherwise exactly the Planner's output. -/
def scheduledShards (req : SimulationRequest) : List ShardSpec :=
  match validateRequest req with
  | .error _ => []
  | .ok _ => planShards req

/-- Modelled from the spec: collection of the complete set of shard
results — the orchestration succeeds only with one result per shard; a
shard whose execution fails permanently aborts the whole orchestration
with `ShardExecutionFailed`, naming the offending shard and its cause,
and the other shards' results are discarded. -/
def collectResults (exec : ShardSpec → Except MCError ShardResult) :
    List ShardSpec → Except MCError (List ShardResult)
  | [] => .ok []
  | s :: rest =>
    match exec s with
    | .error e => .error (.shardExecutionFailed s.shardIndex e)
    | .ok r =>
      match collectResults exec rest with
      | .error e => .error e
      | .ok rs => .ok (r :: rs)

/-! ## Analytic Validator -/

/-- Modelled from the spec: the standard normal cumulative distribution
function. -/
noncomputable def normCdf (x : ℝ) : ℝ :=
  (∫ t in Set.Iic x, Real.exp (-(t ^ 2) / 2)) / Real.sqrt (2 * Real.pi)

/-- Modelled from the spec: the Black–Scholes price of a European call,
the standard closed form with the cumulative normal distribution
function. -/
noncomputable def blackScholesCall (fin : FinParams) : ℝ :=
  let s0 : ℝ := (fin.S0 : ℝ)
  let k : ℝ := (fin.K : ℝ)
  let r : ℝ := (fin.r : ℝ)
  let sigma : ℝ := (fin.sigma : ℝ)
  let t : ℝ := (fin.T : ℝ)
  let d1 := (Real.log (s0 / k) + (r + sigma ^ 2 / 2) * t) /
    (sigma * Real.sqrt t)
  let d2 := d1 - sigma * Real.sqrt t
  s0 * normCdf d1 - k * Real.exp (-(r * t)) * normCdf d2

/-- Modelled from the spec: the Analytic Validator (section 4.5) — for
`european_call` only, attach the Black–Scholes price and the estimator's
absolute error; for every other payoff kind, leave the result untouched
(the fields stay absent). -/
noncomputable def attachAnalytic (req : SimulationRequest)
    (a : AggregateResult) : AggregateResult :=
  if req.payoff = "european_call" then
    let bs := blackScholesCall req.fin
    { a with analyticPrice := some bs,
             absoluteError := some |a.estimate - bs| }
  else a

/-- Modelled from the spec: per-shard execution under the substrate — the
deterministic Shard Simulator run under the retry policy. -/
noncomputable def execShard (s : ShardSpec) : Except MCError ShardResult :=
  ((runWithRetry defaultMaxAttempts
      (fun _attempt => (simulateShard s).map (·.result))).1)

/-- Modelled from the spec: the Orchestrator (section 4.3) — validate,
plan, execute every shard, aggregate the complete result set, and attach
the analytic cross-check. -/
noncomputable def orchestrate (req : SimulationRequest) :
    Except MCError AggregateResult :=
  match validateRequest req with
  | .error e => .error e
  | .ok _ =>
    match collectResults execShard (scheduledShards req) with
    | .error e => .error e
    | .ok results =>
      match aggregate results with
      | .error e => .error e
      | .ok a => .ok (attachAnalytic req a)

/-- The spec's invalid-input scenario: the local request with
`paths_per_shard = 0`. -/
def zeroShardRequest : SimulationRequest :=
  { runMcLocalRequest with pathsPerShard := 0 }

/-- A concrete aggregate result used to exercise the Analytic
Validator. -/
noncomputable def sampleAgg : AggregateResult :=
  { totalPathsProcessed := 1, estimate := 0, stddev := 0, stderr := 0,
    confidence95 := (0, 0), shardCount := 1,
    analyticPrice := none, absoluteError := none }

/-- A concrete shard spec used to exercise the Orchestrator's
result collection. -/
def sampleSpec : ShardSpec :=
  { shardIndex := 3, pathsInShard := 1, stepsPerPath := 1, masterSeed := 42,
    fin := { S0 := 100, K := 100, mu := 1/20, sigma := 1/5, r := 1/100,
             T := 1 },
    payoff := "european_call", discount := true,
    heartbeatEveryPaths := 0, storeFullPaths := false }

end MCEngine

namespace MCClient

/-! ## `temporal_client.py`: `mc_default_params` -/

/-- Look up an environment variable with a default:
Python's `os.getenv(key, default)`. -/
def getenvD (env : String → Option String) (key dflt : String) : String :=
  (env key).getD dflt

/-- The value of one decimal digit character. -/
def charDigit (c : Char) : Option Nat :=
  if c = '0' then some 0 else if c = '1' then some 1
  else if c = '2' then some 2 else if c = '3' then some 3
  else if c = '4' then some 4 else if c = '5' then some 5
  else if c = '6' then some 6 else if c = '7' then some 7
  else if c = '8' then some 8 else if c = '9' then some 9
  else none

/-- The value of a nonempty string of decimal digits. -/
def digitsVal (ds : List Char) : Option Nat :=
  if ds = [] then none else
  ds.foldl (fun acc c => do
    let a ← acc
    let d ← charDigit c
    pure (a * 10 + d)) (some 0)

/-- Python `int(...)` on the integer literals this client deals in. -/
def parseIntL (s : String) : Option Int :=
  match s.toList with
  | [] => none
  | c :: rest =>
    if c = '-' then (digitsVal rest).map (fun n => -(n : Int))
    else (digitsVal (c :: rest)).map (fun n => (n : Int))

/-- Split a character list at its first `'.'`: the part before it, and
(when a dot is present) the part after it. -/
def splitAtDot : List Char → List Char × Option (List Char)
  | [] => ([], none)
  | c :: rest =>
    if c = '.' then ([], some rest)
    else ((splitAtDot rest).1.cons c, (splitAtDot rest).2)

/-- A nonnegative decimal literal (`digits` or `digits.digits`) as an
exact rational; `none` when the character list is not of that shape. -/
def parseDecL (cs : List Char) : Option ℚ :=
  match splitAtDot cs with
  | (w, none) => (digitsVal w).map (fun n => (n : ℚ))
  | (w, some f) =>
    match digitsVal w, digitsVal f with
    | some n, some fr => some ((n : ℚ) + (fr : ℚ) / (10 : ℚ) ^ f.length)
    | _, _ => none

/-- Python `float(...)` on the decimal literals this client deals in,
as an exact rational (optionally negative). -/
def parseFloatQ (s : String) : Option ℚ :=
  match s.toList with
  | [] => none
  | c :: rest =>
    if c = '-' then (parseDecL rest).map (fun q => -q)
    else parseDecL (c :: rest)

/-- Lower-case one ASCII character (Python's `str.lower` on the
characters this client deals in). -/
def asciiLowerChar (c : Char) : Char :=
  if c = 'A' then 'a' else if c = 'B' then 'b' else if c = 'C' then 'c'
  else if c = 'D' then 'd' else if c = 'E' then 'e' else if c = 'F' then 'f'
  else if c = 'G' then 'g' else if c = 'H' then 'h' else if c = 'I' then 'i'
  else if c = 'J' then 'j' else if c = 'K' then 'k' else if c = 'L' then 'l'
  else if c = 'M' then 'm' else if c = 'N' then 'n' else if c = 'O' then 'o'
  else if c = 'P' then 'p' else if c = 'Q' then 'q' else if c = 'R' then 'r'
  else if c = 'S' then 's' else if c = 'T' then 't' else if c = 'U' then 'u'
  else if c = 'V' then 'v' else if c = 'W' then 'w' else if c = 'X' then 'x'
  else if c = 'Y' then 'y' else if c = 'Z' then 'z' else c

/-- Python's `s.lower()`, as a character list. -/
def lowerList (s : String) : List Char :=
  s.toList.map asciiLowerChar

/-- The strings Python's `... in ("1", "true", "yes")` test accepts,
as character lists. -/
def truthyStrings : List (List Char) :=
  [['1'], ['t', 'r', 'u', 'e'], ['y', 'e', 's']]

/-- The request dictionary built by `mc_default_params` in
`temporal_client.py` lines 60–77. -/
structure McParams where
  num_paths_total : Int
  steps_per_path : Int
  paths_per_shard : Int
  max_concurrency : Int
  heartbeat_every_paths : Int
  S0 : ℚ
  K : ℚ
  mu : ℚ
  sigma : ℚ
  r : ℚ
  T : ℚ
  payoff : String
  discount : Bool
  master_seed : Int
  store_full_paths : Bool
deriving DecidableEq, Repr

/-- `mc_default_params` of `temporal_client.py` lines 60–77: every numeric
and payoff field reads an `MC_*` environment variable with a hard-coded
default; `discount` is the literal `True`.  `none` models Python's
`int(...)`/`float(...)` raising on an unparsable override. -/
def mc_default_params (env : String → Option String) : Option McParams := do
  let num_paths_total ← parseIntL (getenvD env "MC_NUM_PATHS" "2000000")
  let steps_per_path ← parseIntL (getenvD env "MC_STEPS" "252")
  let paths_per_shard ← parseIntL (getenvD env "MC_PATHS_PER_SHARD" "200000")
  let max_concurrency ← parseIntL (getenvD env "MC_MAX_CONCURRENCY" "0")
  let heartbeat_every_paths ← parseIntL (getenvD env "MC_HEARTBEAT_EVERY" "10000")
  let s0 ← parseFloatQ (getenvD env "MC_S0" "100.0")
  let k ← parseFloatQ (getenvD env "MC_K" "100.0")
  let mu ← parseFloatQ (getenvD env "MC_MU" "0.05")
  let sigma ← parseFloatQ (getenvD env "MC_SIGMA" "0.2")
  let r ← parseFloatQ (getenvD env "MC_R" "0.01")
  let t ← parseFloatQ (getenvD env "MC_T" "1.0")
  let master_seed ← parseIntL (getenvD env "MC_SEED" "42")
  some { num_paths_total := num_paths_total
         steps_per_path := steps_per_path
         paths_per_shard := paths_per_shard
         max_concurrency := max_concurrency
         heartbeat_every_paths := heartbeat_every_paths
         S0 := s0, K := k, mu := mu, sigma := sigma, r := r, T := t
         payoff := getenvD env "MC_PAYOFF" "european_call"
         discount := true
         master_seed := master_seed
         store_full_paths :=
           (lowerList (getenvD env "MC_STORE_FULL_PATHS" "false")
             ∈ truthyStrings) }

/-- The environment that sets exactly one variable. -/
def envOf (key value : String) : String → Option String :=
  fun q => if q = key then some value else none

end MCClient

/-! # Theorems -/

open MCEngine MCClient

namespace MCEngine

theorem planChunks_length (n p : Nat) :
    (planChunks n p).length = (n + p - 1) / p := by
  simp [planChunks]

theorem planChunks_sum_aux (p : Nat) (_hp : 0 < p) :
    ∀ (m n : Nat), (m - 1) * p < n → n ≤ m * p →
      ((List.range m).map (fun i => min p (n - i * p))).sum = n := by
  intro m
  induction m with
  | zero =>
    intro n h1 h2
    simp only [Nat.zero_mul] at h2
    omega
  | succ m ih =>
    intro n h1 h2
    rw [List.range_succ_eq_map, List.map_cons, List.sum_cons, List.map_map]
    have hcomp : ((fun i => min p (n - i * p)) ∘ Nat.succ) =
        (fun i => min p ((n - p) - i * p)) := by
      funext i
      simp only [Function.comp_apply]
      congr 1
      rw [Nat.succ_mul, Nat.add_comm, ← Nat.sub_sub]
    rw [hcomp]
    simp only [Nat.zero_mul, Nat.sub_zero]
    cases m with
    | zero =>
      simp only [List.range_zero, List.map_nil, List.sum_nil]
      omega
    | succ k =>
      have hple : p ≤ (k + 1) * p := Nat.le_mul_of_pos_left p (by omega)
      have he1 : (k + 1 + 1) * p = (k + 1) * p + p := Nat.succ_mul _ _
      have he2 : (k + 1) * p = k * p + p := Nat.succ_mul _ _
      simp only [Nat.add_sub_cancel] at h1
      have hlow : (k + 1 - 1) * p < n - p := by
        simp only [Nat.add_sub_cancel]
        omega
      have hhigh : n - p ≤ (k + 1) * p := by omega
      have hrec := ih (n - p) hlow hhigh
      have hmin : min p n = p := Nat.min_eq_left (by omega)
      rw [hmin, hrec]
      omega

theorem ceil_bounds (n p : Nat) (hn : 0 < n) (hp : 0 < p) :
    ((n + p - 1) / p - 1) * p < n ∧ n ≤ ((n + p - 1) / p) * p := by
  have e := Nat.div_add_mod (n + p - 1) p
  have hr : (n + p - 1) % p < p := Nat.mod_lt _ hp
  cases hq : (n + p - 1) / p with
  | zero =>
    rw [hq] at e
    simp only [Nat.mul_zero, Nat.zero_add] at e
    omega
  | succ q =>
    rw [hq] at e
    constructor
    · have h1 : (q + 1 - 1) * p = q * p := by simp
      rw [h1]
      have h2 : p * (q + 1) = p * q + p := Nat.mul_succ _ _
      have h3 : q * p = p * q := Nat.mul_comm _ _
      omega
    · have h2 : p * (q + 1) = p * q + p := Nat.mul_succ _ _
      have h3 : (q + 1) * p = p * (q + 1) := Nat.mul_comm _ _
      omega

theorem planChunks_sum (n p : Nat) (hn : 0 < n) (hp : 0 < p) :
    (planChunks n p).sum = n := by
  have hb := ceil_bounds n p hn hp
  exact planChunks_sum_aux p hp _ n hb.1 hb.2

theorem planChunks_getElem (n p i : Nat) (h : i < (planChunks n p).length) :
    (planChunks n p)[i] = min p (n - i * p) := by
  simp [planChunks]

theorem planChunks_front (n p : Nat) (hn : 0 < n) (hp : 0 < p) (i : Nat)
    (h : i + 1 < (planChunks n p).length) :
    (planChunks n p)[i] = p := by
  rw [planChunks_getElem]
  have hlen := planChunks_length n p
  have hb := ceil_bounds n p hn hp
  have h1 : (i + 1) * p ≤ ((n + p - 1) / p - 1) * p :=
    Nat.mul_le_mul_right p (by omega)
  have h2 : (i + 1) * p = i * p + p := Nat.succ_mul _ _
  exact Nat.min_eq_left (by omega)

theorem planChunks_last_val (n p : Nat) (hn : 0 < n) (hp : 0 < p) :
    (planChunks n p).getLast? = some (if n % p = 0 then p else n % p) := by
  have hlen := planChunks_length n p
  have hb := ceil_bounds n p hn hp
  cases hq : (n + p - 1) / p with
  | zero =>
    rw [hq] at hb
    simp only [Nat.zero_mul] at hb
    omega
  | succ q =>
    rw [hq] at hb hlen
    have hqs : (q + 1 - 1) * p = q * p := by simp
    rw [hqs] at hb
    have he : (q + 1) * p = q * p + p := by ring
    rw [List.getLast?_eq_getElem?, List.getElem?_eq_getElem (by omega),
      planChunks_getElem, hlen]
    simp only [Nat.add_sub_cancel]
    have hmod : n % p = (n - q * p) % p := by
      have hsub : n = (n - q * p) + q * p := by omega
      conv_lhs => rw [hsub]
      rw [Nat.add_mul_mod_self_right]
    rcases eq_or_lt_of_le (show n - q * p ≤ p by omega) with hkp | hkp
    · rw [hkp, hmod, hkp, Nat.mod_self, if_pos rfl, Nat.min_self]
    · have hzero : ¬ (n % p = 0) := by
        rw [hmod, Nat.mod_eq_of_lt hkp]
        omega
      rw [if_neg hzero, hmod, Nat.mod_eq_of_lt hkp,
        Nat.min_eq_right (Nat.le_of_lt hkp)]

/-- C1: importing the Monte Carlo entry-point modules always fails —
`temporal_worker.py` defines neither `MonteCarloWorkflow` nor
`mc_simulate_shard`, yet `run_mc_local.py` and `temporal_client.py`
both import those names from it, so loading either module raises an
`ImportError` (at the missing name `MonteCarloWorkflow`) before any
simulation can start. -/
theorem claim_C1_import_failure :
    "MonteCarloWorkflow" ∉ temporalWorkerNames ∧
    "mc_simulate_shard" ∉ temporalWorkerNames ∧
    loadRunMcLocal = Except.error "MonteCarloWorkflow" ∧
    loadTemporalClient = Except.error "MonteCarloWorkflow" :=
  ⟨by decide, by decide, rfl, rfl⟩

/-- C2: for every `totalPaths > 0` and `pathsPerShard > 0` the Shard
Planner produces exactly `ceil(totalPaths / pathsPerShard)` shard specs
with contiguous 0-based indices whose `pathsInShard` values sum to
`totalPaths`; every shard except possibly the last has exactly
`pathsPerShard` paths, and the last has `totalPaths mod pathsPerShard`
(or `pathsPerShard` when it divides evenly).  In particular the request
of `run_mc_local.py` (`num_paths_total=200000, paths_per_shard=50000`)
yields 4 shards of 50000 paths each. -/
theorem claim_C2_shard_planner (req : SimulationRequest)
    (hn : 0 < req.totalPaths) (hp : 0 < req.pathsPerShard) :
    (planShards req).length =
      (req.totalPaths.toNat + req.pathsPerShard.toNat - 1) /
        req.pathsPerShard.toNat ∧
    ((planShards req).map (fun s => s.pathsInShard)).sum =
      req.totalPaths.toNat ∧
    (∀ i (h : i + 1 < (planShards req).length),
      ((planShards req).get ⟨i, by omega⟩).pathsInShard =
        req.pathsPerShard.toNat) ∧
    ((planShards req).map (fun s => s.pathsInShard)).getLast? =
      some (if req.totalPaths.toNat % req.pathsPerShard.toNat = 0
            then req.pathsPerShard.toNat
            else req.totalPaths.toNat % req.pathsPerShard.toNat) ∧
    (∀ i (h : i < (planShards req).length),
      ((planShards req).get ⟨i, h⟩).shardIndex = i) ∧
    (planShards runMcLocalRequest).map (fun s => s.pathsInShard) =
      [50000, 50000, 50000, 50000] := by
  have hn2 : 0 < req.totalPaths.toNat := by omega
  have hp2 : 0 < req.pathsPerShard.toNat := by omega
  have hmap : (planShards req).map (fun s => s.pathsInShard) =
      planChunks req.totalPaths.toNat req.pathsPerShard.toNat := by
    unfold planShards
    rw [List.map_map]
    have hc : ((fun s : ShardSpec => s.pathsInShard) ∘
        (fun pr : Nat × Nat =>
          ({ shardIndex := pr.1, pathsInShard := pr.2,
             stepsPerPath := req.stepsPerPath.toNat,
             masterSeed := req.masterSeed, fin := req.fin,
             payoff := req.payoff, discount := req.discount,
             heartbeatEveryPaths := req.heartbeatEveryPaths.toNat,
             storeFullPaths := req.storeFullPaths } : ShardSpec))) =
        Prod.snd := by
      funext pr
      rfl
    rw [hc, List.enum_map_snd]
  refine ⟨?_, ?_, ?_, ?_, ?_, ?_⟩
  · simp [planShards, planChunks_length]
  · rw [hmap]
    exact planChunks_sum _ _ hn2 hp2
  · intro i h
    have hh : i + 1 <
        (planChunks req.totalPaths.toNat req.pathsPerShard.toNat).length := by
      simpa [planShards] using h
    have := planChunks_front req.totalPaths.toNat req.pathsPerShard.toNat
      hn2 hp2 i hh
    simpa [planShards, List.getElem_enum] using this
  · rw [hmap]
    exact planChunks_last_val _ _ hn2 hp2
  · intro i h
    simp [planShards, List.getElem_enum]
  · decide

/-- Witness for C2: the scenario of `run_mc_local.py` (200000 total
paths, 50000 per shard) concretely yields four shards of 50000 paths. -/
theorem claim_C2_witness :
    (planShards runMcLocalRequest).map (fun s => s.pathsInShard) =
      [50000, 50000, 50000, 50000] :=
  (claim_C2_shard_planner runMcLocalRequest (by decide) (by decide)).2.2.2.2.2

theorem foldl_combineTriples (l : List MomentTriple) (init : MomentTriple) :
    l.foldl combineTriples init =
      { count := init.count + (l.map (fun t => t.count)).sum,
        sum := init.sum + (l.map (fun t => t.sum)).sum,
        sumsq := init.sumsq + (l.map (fun t => t.sumsq)).sum } := by
  induction l generalizing init with
  | nil => simp
  | cons a l ih =>
    rw [List.foldl_cons, ih]
    simp only [List.map_cons, List.sum_cons, combineTriples,
      MomentTriple.mk.injEq]
    refine ⟨by omega, by ring, by ring⟩

theorem combineAll_eq (rs : List ShardResult) :
    combineAll rs =
      { count := (rs.map (fun r => r.count)).sum,
        sum := (rs.map (fun r => r.sumPayoff)).sum,
        sumsq := (rs.map (fun r => r.sumSquaredPayoff)).sum } := by
  unfold combineAll
  rw [foldl_combineTriples]
  simp only [List.map_map, MomentTriple.mk.injEq]
  have h1 : ((fun t : MomentTriple => t.count) ∘ tripleOf) =
      (fun r : ShardResult => r.count) := rfl
  have h2 : ((fun t : MomentTriple => t.sum) ∘ tripleOf) =
      (fun r : ShardResult => r.sumPayoff) := rfl
  have h3 : ((fun t : MomentTriple => t.sumsq) ∘ tripleOf) =
      (fun r : ShardResult => r.sumSquaredPayoff) := rfl
  rw [h1, h2, h3]
  refine ⟨by omega, by ring, by ring⟩

/-- C3: aggregation is order-independent — combining a permutation of a
non-empty list of shard results yields an identical `AggregateResult`
(identical `estimate`, `stddev`, `stderr`), because the pairwise
combination of `(count, sum, sumsq)` triples is associative and
commutative. -/
theorem claim_C3_aggregation_order_independent
    (rs1 rs2 : List ShardResult) (hperm : rs1.Perm rs2) (_hne : rs1 ≠ []) :
    aggregate rs1 = aggregate rs2 := by
  have hc : combineAll rs1 = combineAll rs2 := by
    rw [combineAll_eq, combineAll_eq]
    rw [(hperm.map (fun r => r.count)).sum_eq,
      (hperm.map (fun r => r.sumPayoff)).sum_eq,
      (hperm.map (fun r => r.sumSquaredPayoff)).sum_eq]
  unfold aggregate stderrOf stddevOf varianceOf meanOf
  rw [hc, hperm.length_eq]

/-- Witness for C3: two concrete shard results aggregated in both orders
give the same result. -/
theorem claim_C3_witness :
    aggregate [(⟨1, 2, 3, 5⟩ : ShardResult), ⟨0, 1, 1, 1⟩] =
      aggregate [(⟨0, 1, 1, 1⟩ : ShardResult), ⟨1, 2, 3, 5⟩] :=
  claim_C3_aggregation_order_independent _ _
    (List.Perm.swap _ _ _) (by simp)

/-- C4: for every list of shard results with positive total count, the
Aggregator succeeds and returns `mean = Σ sumPayoff / totalCount`,
`stddev = sqrt(variance)` for the clamped (hence never negative)
`variance = max (Σ sumsq / totalCount − mean², 0)`,
`stderr = stddev / sqrt(totalCount)`, and
`confidence95 = [mean − 1.96·stderr, mean + 1.96·stderr]`. -/
theorem claim_C4_aggregator_formulas (rs : List ShardResult)
    (hpos : 0 < (rs.map (fun r => r.count)).sum) :
    ∃ a : AggregateResult,
      aggregate rs = .ok a ∧
      a.totalPathsProcessed = (rs.map (fun r => r.count)).sum ∧
      a.estimate = (rs.map (fun r => r.sumPayoff)).sum /
        (((rs.map (fun r => r.count)).sum : ℕ) : ℝ) ∧
      (∃ v : ℝ, 0 ≤ v ∧
        v = max ((rs.map (fun r => r.sumSquaredPayoff)).sum /
            (((rs.map (fun r => r.count)).sum : ℕ) : ℝ) - a.estimate ^ 2) 0 ∧
        a.stddev = Real.sqrt v) ∧
      a.stderr = a.stddev /
        Real.sqrt (((rs.map (fun r => r.count)).sum : ℕ) : ℝ) ∧
      a.confidence95 =
        (a.estimate - 1.96 * a.stderr, a.estimate + 1.96 * a.stderr) ∧
      a.shardCount = rs.length := by
  have hcount : (combineAll rs).count = (rs.map (fun r => r.count)).sum := by
    rw [combineAll_eq]
  have hsum : (combineAll rs).sum = (rs.map (fun r => r.sumPayoff)).sum := by
    rw [combineAll_eq]
  have hsumsq : (combineAll rs).sumsq =
      (rs.map (fun r => r.sumSquaredPayoff)).sum := by
    rw [combineAll_eq]
  unfold aggregate
  rw [if_neg (by omega)]
  refine ⟨_, rfl, hcount, ?_, ⟨varianceOf rs,
    by unfold varianceOf; exact le_max_right _ _, ?_, rfl⟩, ?_, rfl, rfl⟩
  · unfold meanOf
    rw [hsum, hcount]
  · unfold varianceOf meanOf
    rw [hsumsq, hsum, hcount]
  · unfold stderrOf
    rw [hcount]

/-- Witness for C4: a concrete single-shard list with count 1 aggregates
successfully with `shardCount = 1`. -/
theorem claim_C4_witness :
    ∃ a : AggregateResult,
      aggregate [(⟨0, 1, 0, 0⟩ : ShardResult)] = .ok a ∧
      a.shardCount = 1 := by
  obtain ⟨a, h1, _, _, _, _, _, h7⟩ :=
    claim_C4_aggregator_formulas [⟨0, 1, 0, 0⟩] (by decide)
  exact ⟨a, h1, h7⟩

theorem shardStep_proj (s1 s2 : ShardSpec)
    (hfin : s1.fin = s2.fin) (hsteps : s1.stepsPerPath = s2.stepsPerPath)
    (hpay : s1.payoff = s2.payoff) (hdisc : s1.discount = s2.discount)
    (st1 st2 : ShardState) (hproj : shardProj st1 = shardProj st2) :
    (∃ e, shardStep s1 st1 = .error e ∧ shardStep s2 st2 = .error e) ∨
    (∃ u1 u2, shardStep s1 st1 = .ok u1 ∧ shardStep s2 st2 = .ok u2 ∧
      shardProj u1 = shardProj u2) := by
  have hrng : st1.rng = st2.rng := congrArg (fun q => q.1) hproj
  have hcount : st1.count = st2.count := congrArg (fun q => q.2.1) hproj
  have hsum : st1.sumPayoff = st2.sumPayoff :=
    congrArg (fun q => q.2.2.1) hproj
  have hsumsq : st1.sumsq = st2.sumsq := congrArg (fun q => q.2.2.2) hproj
  unfold shardStep
  rw [hfin, hsteps, hpay, hdisc, hrng]
  cases hev : evalPayoff s2.payoff s2.discount s2.fin
      (simPath s2.fin s2.stepsPerPath st2.rng).price
      ((simPath s2.fin s2.stepsPerPath st2.rng).priceSum /
        (s2.stepsPerPath : ℝ)) with
  | error e =>
    left
    exact ⟨e, rfl, rfl⟩
  | ok pay =>
    right
    refine ⟨_, _, rfl, rfl, ?_⟩
    simp [shardProj, hcount, hsum, hsumsq]

theorem runShardPaths_proj (s1 s2 : ShardSpec)
    (hfin : s1.fin = s2.fin) (hsteps : s1.stepsPerPath = s2.stepsPerPath)
    (hpay : s1.payoff = s2.payoff) (hdisc : s1.discount = s2.discount) :
    ∀ (n : Nat) (st1 st2 : ShardState), shardProj st1 = shardProj st2 →
      (∃ e, runShardPaths s1 n st1 = .error e ∧
        runShardPaths s2 n st2 = .error e) ∨
      (∃ u1 u2, runShardPaths s1 n st1 = .ok u1 ∧
        runShardPaths s2 n st2 = .ok u2 ∧ shardProj u1 = shardProj u2) := by
  intro n
  induction n with
  | zero =>
    intro st1 st2 h
    right
    exact ⟨st1, st2, rfl, rfl, h⟩
  | succ n ih =>
    intro st1 st2 h
    rcases shardStep_proj s1 s2 hfin hsteps hpay hdisc st1 st2 h with
      ⟨e, he1, he2⟩ | ⟨u1, u2, ho1, ho2, hu⟩
    · left
      exact ⟨e, by simp [runShardPaths, he1], by simp [runShardPaths, he2]⟩
    · have hrec := ih u1 u2 hu
      rcases hrec with ⟨e, hr1, hr2⟩ | ⟨v1, v2, hv1, hv2, hv⟩
      · left
        exact ⟨e, by simp [runShardPaths, ho1, hr1],
          by simp [runShardPaths, ho2, hr2]⟩
      · right
        exact ⟨v1, v2, by simp [runShardPaths, ho1, hv1],
          by simp [runShardPaths, ho2, hv2], hv⟩

/-- C5: the Shard Simulator is deterministic — its `ShardResult` is a
function of `(masterSeed, shardIndex, pathsInShard, stepsPerPath,
financial parameters)` alone: two shard specs agreeing on those fields
(whatever their heartbeat cadence or full-path-buffer flag) produce
identical results, the shard-local seed being a deterministic function of
`(masterSeed, shardIndex)`. -/
theorem claim_C5_simulator_deterministic (s1 s2 : ShardSpec)
    (hseed : s1.masterSeed = s2.masterSeed)
    (hidx : s1.shardIndex = s2.shardIndex)
    (hpaths : s1.pathsInShard = s2.pathsInShard)
    (hsteps : s1.stepsPerPath = s2.stepsPerPath)
    (hfin : s1.fin = s2.fin) (hpay : s1.payoff = s2.payoff)
    (hdisc : s1.discount = s2.discount) :
    (simulateShard s1).map (fun o => o.result) =
      (simulateShard s2).map (fun o => o.result) := by
  unfold simulateShard
  rw [hpaths]
  rcases runShardPaths_proj s1 s2 hfin hsteps hpay hdisc s2.pathsInShard
      { rng := shardSeed s1.masterSeed s1.shardIndex, count := 0,
        sumPayoff := 0, sumsq := 0, heartbeats := [], buffer := [] }
      { rng := shardSeed s2.masterSeed s2.shardIndex, count := 0,
        sumPayoff := 0, sumsq := 0, heartbeats := [], buffer := [] }
      (by simp [shardProj, hseed, hidx]) with
    ⟨e, he1, he2⟩ | ⟨u1, u2, ho1, ho2, hu⟩
  · rw [he1, he2]
  · rw [ho1, ho2]
    have hcount : u1.count = u2.count := congrArg (fun q => q.2.1) hu
    have hsum : u1.sumPayoff = u2.sumPayoff :=
      congrArg (fun q => q.2.2.1) hu
    have hsumsq : u1.sumsq = u2.sumsq := congrArg (fun q => q.2.2.2) hu
    simp [Except.map, ShardResult.mk.injEq, hidx, hcount, hsum, hsumsq]

/-- Witness for C5: two concrete shard specs agreeing on seed, index,
path count, step count and financial parameters but differing in
heartbeat cadence and the full-path flag produce the same result. -/
theorem claim_C5_witness :
    (simulateShard
      { shardIndex := 0, pathsInShard := 2, stepsPerPath := 1,
        masterSeed := 42,
        fin := { S0 := 100, K := 100, mu := 1/20, sigma := 1/5,
                 r := 1/100, T := 1 },
        payoff := "european_call", discount := true,
        heartbeatEveryPaths := 1, storeFullPaths := true }).map
      (fun o => o.result) =
    (simulateShard
      { shardIndex := 0, pathsInShard := 2, stepsPerPath := 1,
        masterSeed := 42,
        fin := { S0 := 100, K := 100, mu := 1/20, sigma := 1/5,
                 r := 1/100, T := 1 },
        payoff := "european_call", discount := true,
        heartbeatEveryPaths := 0, storeFullPaths := false }).map
      (fun o => o.result) :=
  claim_C5_simulator_deterministic _ _ rfl rfl rfl rfl rfl rfl rfl

/-- C6: the Shard Simulator evaluates the per-path payoff by kind —
`european_call ↦ max(S_final − K, 0)`, `european_put ↦ max(K − S_final, 0)`,
`asian_call ↦ max(avgPrice − K, 0)`, `asian_put ↦ max(K − avgPrice, 0)` —
multiplied by `exp(−r·T)` exactly when `discount` is set, and any
unsupported payoff kind fails with `UnsupportedPayoff`. -/
theorem claim_C6_payoff_evaluation (discount : Bool) (fin : FinParams)
    (sFinal avgPrice : ℝ) :
    evalPayoff "european_call" discount fin sFinal avgPrice =
      .ok (discountFactor discount fin * max (sFinal - (fin.K : ℝ)) 0) ∧
    evalPayoff "european_put" discount fin sFinal avgPrice =
      .ok (discountFactor discount fin * max ((fin.K : ℝ) - sFinal) 0) ∧
    evalPayoff "asian_call" discount fin sFinal avgPrice =
      .ok (discountFactor discount fin * max (avgPrice - (fin.K : ℝ)) 0) ∧
    evalPayoff "asian_put" discount fin sFinal avgPrice =
      .ok (discountFactor discount fin * max ((fin.K : ℝ) - avgPrice) 0) ∧
    (∀ payoff : String, payoff ∉ supportedPayoffs →
      evalPayoff payoff discount fin sFinal avgPrice =
        .error (.unsupportedPayoff payoff)) ∧
    discountFactor true fin = Real.exp (-((fin.r : ℝ) * (fin.T : ℝ))) ∧
    discountFactor false fin = 1 := by
  refine ⟨rfl, rfl, rfl, rfl, ?_, rfl, rfl⟩
  intro payoff hmem
  simp only [supportedPayoffs, List.mem_cons, List.not_mem_nil, or_false,
    not_or] at hmem
  obtain ⟨h1, h2, h3, h4⟩ := hmem
  simp [evalPayoff, h1, h2, h3, h4]

/-- Witness for C6: the unsupported payoff selector `digital` fails with
`UnsupportedPayoff`. -/
theorem claim_C6_witness :
    evalPayoff "digital" true
      { S0 := 100, K := 100, mu := 1/20, sigma := 1/5, r := 1/100, T := 1 }
      0 0 = .error (.unsupportedPayoff "digital") :=
  (claim_C6_payoff_evaluation true
    { S0 := 100, K := 100, mu := 1/20, sigma := 1/5, r := 1/100, T := 1 }
    0 0).2.2.2.2.1 "digital" (by decide)

/-- C7: a request with a non-positive count fails with
`InvalidParameter` before any shard is scheduled; `InvalidParameter` and
`UnsupportedPayoff` are never retried, while transient failures
(timeout, stalled shard) are retried with exponential backoff up to the
default maximum of 5 attempts. -/
theorem claim_C7_validation_and_retry :
    (∀ req : SimulationRequest,
      (req.totalPaths ≤ 0 ∨ req.stepsPerPath ≤ 0 ∨ req.pathsPerShard ≤ 0) →
      (∃ m, orchestrate req = .error (.invalidParameter m)) ∧
        scheduledShards req = []) ∧
    (∀ m, isRetryable (.invalidParameter m) = false) ∧
    (∀ q, isRetryable (.unsupportedPayoff q) = false) ∧
    isRetryable .shardTimeout = true ∧
    isRetryable .shardStalled = true ∧
    defaultMaxAttempts = 5 ∧
    (∀ (f : Nat → Except MCError ShardResult) (e : MCError),
      f 1 = .error e → isRetryable e = false →
      runWithRetry defaultMaxAttempts f = (.error e, 1)) ∧
    (∀ (f : Nat → Except MCError ShardResult),
      (∀ k, f k = .error .shardTimeout) →
      runWithRetry defaultMaxAttempts f = (.error .shardTimeout, 5)) ∧
    (∀ (initial : ℚ) (a : Nat), 1 ≤ a →
      backoffDelay initial (a + 1) = 2 * backoffDelay initial a) := by
  refine ⟨?_, fun m => rfl, fun q => rfl, rfl, rfl, rfl, ?_, ?_, ?_⟩
  · intro req hbad
    have hval : ∃ m, validateRequest req = .error (.invalidParameter m) := by
      unfold validateRequest
      by_cases h1 : req.totalPaths ≤ 0
      · exact ⟨_, by rw [if_pos h1]⟩
      · rw [if_neg h1]
        by_cases h2 : req.stepsPerPath ≤ 0
        · exact ⟨_, by rw [if_pos h2]⟩
        · rw [if_neg h2]
          have h3 : req.pathsPerShard ≤ 0 := by tauto
          exact ⟨_, by rw [if_pos h3]⟩
    obtain ⟨m, hm⟩ := hval
    refine ⟨⟨m, ?_⟩, ?_⟩
    · unfold orchestrate
      rw [hm]
    · unfold scheduledShards
      rw [hm]
  · intro f e hf hret
    unfold runWithRetry defaultMaxAttempts
    simp [retryGo, hf, hret]
  · intro f hf
    unfold runWithRetry defaultMaxAttempts
    simp [retryGo, hf, isRetryable]
  · intro initial a ha
    obtain ⟨b, rfl⟩ : ∃ b, a = b + 1 := ⟨a - 1, by omega⟩
    unfold backoffDelay
    simp only [Nat.add_sub_cancel]
    rw [pow_succ]
    ring

/-- Witness for C7: the concrete request with `paths_per_shard = 0`
fails with `InvalidParameter` and schedules no shard; a permanently
timing-out shard execution is attempted exactly 5 times. -/
theorem claim_C7_witness :
    ((∃ m, orchestrate zeroShardRequest = .error (.invalidParameter m)) ∧
      scheduledShards zeroShardRequest = []) ∧
    runWithRetry defaultMaxAttempts
      (fun _ => (.error .shardTimeout : Except MCError ShardResult)) =
      (.error .shardTimeout, 5) :=
  ⟨claim_C7_validation_and_retry.1 zeroShardRequest (by decide),
   claim_C7_validation_and_retry.2.2.2.2.2.2.2.1
     (fun _ => .error .shardTimeout) (fun _ => rfl)⟩

/-- C8: the Analytic Validator attaches the Black–Scholes price and
`absoluteError = |estimate − analyticPrice|` for `european_call`, and
only for that kind: for every other payoff the aggregate result passes
through untouched, and the Aggregator itself always constructs those
fields absent, so a non-European-call orchestration result never carries
them. -/
theorem claim_C8_analytic_validator (req : SimulationRequest)
    (a : AggregateResult) :
    (req.payoff = "european_call" →
      (attachAnalytic req a).analyticPrice =
        some (blackScholesCall req.fin) ∧
      (attachAnalytic req a).absoluteError =
        some |a.estimate - blackScholesCall req.fin|) ∧
    (req.payoff ≠ "european_call" → attachAnalytic req a = a) ∧
    (∀ rs b, aggregate rs = .ok b →
      b.analyticPrice = none ∧ b.absoluteError = none) ∧
    (∀ res, orchestrate req = .ok res → req.payoff ≠ "european_call" →
      res.analyticPrice = none ∧ res.absoluteError = none) := by
  have hagg : ∀ (rs : List ShardResult) (b : AggregateResult),
      aggregate rs = .ok b →
      b.analyticPrice = none ∧ b.absoluteError = none := by
    intro rs b hb
    unfold aggregate at hb
    split at hb
    · cases hb
    · injection hb with hb
      subst hb
      exact ⟨rfl, rfl⟩
  have hpass : req.payoff ≠ "european_call" → attachAnalytic req a = a := by
    intro h
    unfold attachAnalytic
    rw [if_neg h]
  refine ⟨?_, hpass, hagg, ?_⟩
  · intro h
    unfold attachAnalytic
    rw [if_pos h]
    exact ⟨rfl, rfl⟩
  · intro res hres hneq
    unfold orchestrate at hres
    split at hres
    · cases hres
    · split at hres
      · cases hres
      · split at hres
        · cases hres
        · injection hres with hres
          subst hres
          rename_i results hcoll b hb
          have hb2 := hagg _ _ hb
          unfold attachAnalytic
          rw [if_neg hneq]
          exact hb2

/-- Witness for C8: the European-call request of `run_mc_local.py` gets
the Black–Scholes price attached, while the same request with an
`asian_put` payoff passes through unchanged. -/
theorem claim_C8_witness :
    (attachAnalytic runMcLocalRequest sampleAgg).analyticPrice =
      some (blackScholesCall runMcLocalRequest.fin) ∧
    attachAnalytic { runMcLocalRequest with payoff := "asian_put" }
      sampleAgg = sampleAgg :=
  ⟨((claim_C8_analytic_validator runMcLocalRequest sampleAgg).1 rfl).1,
   (claim_C8_analytic_validator
      { runMcLocalRequest with payoff := "asian_put" } sampleAgg).2.1
     (by decide)⟩

theorem collectResults_ok_shape
    (exec : ShardSpec → Except MCError ShardResult) :
    ∀ (specs : List ShardSpec) (rs : List ShardResult),
      collectResults exec specs = .ok rs →
      rs.length = specs.length ∧
      ∀ i (h1 : i < specs.length) (h2 : i < rs.length),
        exec (specs.get ⟨i, h1⟩) = .ok (rs.get ⟨i, h2⟩) := by
  intro specs
  induction specs with
  | nil =>
    intro rs h
    injection h with h
    subst h
    exact ⟨rfl, fun i h1 h2 => by simp at h1⟩
  | cons s rest ih =>
    intro rs h
    unfold collectResults at h
    cases hex : exec s with
    | error e =>
      rw [hex] at h
      cases h
    | ok r =>
      rw [hex] at h
      cases hcoll : collectResults exec rest with
      | error e =>
        rw [hcoll] at h
        cases h
      | ok rs2 =>
        rw [hcoll] at h
        injection h with h
        subst h
        obtain ⟨hlen, hget⟩ := ih rs2 hcoll
        refine ⟨by simp [hlen], ?_⟩
        intro i h1 h2
        cases i with
        | zero => simpa using hex
        | succ i => simpa using hget i (by simpa using h1) (by simpa using h2)

theorem collectResults_error_of_mem
    (exec : ShardSpec → Except MCError ShardResult) :
    ∀ (specs : List ShardSpec), (∃ s ∈ specs, ∃ e, exec s = .error e) →
      ∃ i e2, collectResults exec specs =
        .error (.shardExecutionFailed i e2) := by
  intro specs
  induction specs with
  | nil =>
    rintro ⟨s, hs, -⟩
    cases hs
  | cons s0 rest ih =>
    rintro ⟨s, hs, e, he⟩
    rcases List.mem_cons.mp hs with rfl | hmem
    · rw [show collectResults exec (s :: rest) =
          (match exec s with
           | .error e => .error (.shardExecutionFailed s.shardIndex e)
           | .ok r =>
             match collectResults exec rest with
             | .error e => .error e
             | .ok rs => .ok (r :: rs)) from rfl, he]
      exact ⟨s.shardIndex, e, rfl⟩
    · cases hex : exec s0 with
      | error e0 =>
        exact ⟨s0.shardIndex, e0, by
          unfold collectResults
          rw [hex]⟩
      | ok r =>
        obtain ⟨i, e2, hrec⟩ := ih ⟨s, hmem, e, he⟩
        exact ⟨i, e2, by
          unfold collectResults
          rw [hex, hrec]⟩

/-- C9: the orchestration is all-or-nothing — a successful collection
contains exactly one result per planned shard (never a proper subset),
and if any shard's execution permanently fails the whole collection is an
explicit `ShardExecutionFailed` error naming a failing shard, with the
other shards' results discarded. -/
theorem claim_C9_all_or_nothing
    (exec : ShardSpec → Except MCError ShardResult)
    (specs : List ShardSpec) :
    (∀ rs, collectResults exec specs = .ok rs →
      rs.length = specs.length ∧
      ∀ i (h1 : i < specs.length) (h2 : i < rs.length),
        exec (specs.get ⟨i, h1⟩) = .ok (rs.get ⟨i, h2⟩)) ∧
    ((∃ s ∈ specs, ∃ e, exec s = .error e) →
      ∃ i e2, collectResults exec specs =
        .error (.shardExecutionFailed i e2)) :=
  ⟨fun rs h => collectResults_ok_shape exec specs rs h,
   fun h => collectResults_error_of_mem exec specs h⟩

/-- Witness for C9: with a single concrete shard whose execution times
out permanently, the collection is a `ShardExecutionFailed` error. -/
theorem claim_C9_witness :
    ∃ i e2,
      collectResults (fun _ => .error .shardTimeout) [sampleSpec] =
        .error (.shardExecutionFailed i e2) :=
  (claim_C9_all_or_nothing (fun _ => .error .shardTimeout) [sampleSpec]).2
    ⟨sampleSpec, by simp, .shardTimeout, rfl⟩

end MCEngine

namespace MCClient

set_option maxHeartbeats 2000000 in
/-- C10: `mc_default_params` always returns a request with
`discount = True` — every numeric and payoff field of the invocation
contract is overridable through its `MC_*` environment variable, but no
environment variable influences `discount`, so for every environment the
constructed request has `discount = true`. -/
theorem claim_C10_discount_always_true :
    (∀ (env : String → Option String) (p : McParams),
      mc_default_params env = some p → p.discount = true) ∧
    (mc_default_params (envOf "MC_NUM_PATHS" "7")).map
      (fun p => p.num_paths_total) = some 7 ∧
    (mc_default_params (envOf "MC_STEPS" "7")).map
      (fun p => p.steps_per_path) = some 7 ∧
    (mc_default_params (envOf "MC_PATHS_PER_SHARD" "7")).map
      (fun p => p.paths_per_shard) = some 7 ∧
    (mc_default_params (envOf "MC_MAX_CONCURRENCY" "7")).map
      (fun p => p.max_concurrency) = some 7 ∧
    (mc_default_params (envOf "MC_HEARTBEAT_EVERY" "7")).map
      (fun p => p.heartbeat_every_paths) = some 7 ∧
    (mc_default_params (envOf "MC_S0" "7.5")).map
      (fun p => p.S0) = some (15/2) ∧
    (mc_default_params (envOf "MC_K" "7.5")).map
      (fun p => p.K) = some (15/2) ∧
    (mc_default_params (envOf "MC_MU" "7.5")).map
      (fun p => p.mu) = some (15/2) ∧
    (mc_default_params (envOf "MC_SIGMA" "7.5")).map
      (fun p => p.sigma) = some (15/2) ∧
    (mc_default_params (envOf "MC_R" "7.5")).map
      (fun p => p.r) = some (15/2) ∧
    (mc_default_params (envOf "MC_T" "7.5")).map
      (fun p => p.T) = some (15/2) ∧
    (mc_default_params (envOf "MC_PAYOFF" "asian_put")).map
      (fun p => p.payoff) = some "asian_put" ∧
    (mc_default_params (envOf "MC_SEED" "7")).map
      (fun p => p.master_seed) = some 7 ∧
    (mc_default_params (envOf "MC_STORE_FULL_PATHS" "TRUE")).map
      (fun p => p.store_full_paths) = some true := by
  constructor
  · intro env p h
    simp only [mc_default_params, Option.bind_eq_some, Option.pure_def,
      Option.some.injEq, bind, Option.bind_eq_some] at h
    obtain ⟨a1, -, a2, -, a3, -, a4, -, a5, -, a6, -, a7, -, a8, -, a9, -,
      a10, -, a11, -, a12, -, hp⟩ := h
    subst hp
    rfl
  · refine ⟨?_, ?_, ?_, ?_, ?_, ?_, ?_, ?_, ?_, ?_, ?_, ?_, ?_, ?_⟩ <;>
      simp +decide [mc_default_params, getenvD, envOf, parseIntL,
        parseFloatQ, parseDecL, splitAtDot, digitsVal, charDigit,
        lowerList, truthyStrings, asciiLowerChar] <;>
      norm_num

/-- Witness for C10: the empty environment yields the default request,
whose `discount` field is `true`. -/
theorem claim_C10_witness :
    ∃ p : McParams, mc_default_params (fun _ => none) = some p ∧
      p.discount = true := by
  obtain ⟨p, hp⟩ := Option.isSome_iff_exists.mp
    (by decide : (mc_default_params (fun _ => none)).isSome = true)
  exact ⟨p, hp, claim_C10_discount_always_true.1 _ p hp⟩

end MCClient
